import Mathlib

/-!
# Verification of the `vue-types` validator object model

Shallow embedding of `src/src/index.ts` (the `createTypes` registry facade)
together with the descriptor model it builds on.  The helper modules
(`src/utils.ts`, `src/validators/native.ts`, `src/sensibles.ts`) are not part
of the provided sources, so the helpers they export (`toType`,
`toValidableType`, `validateType`, the chainable `def` / `isRequired`
operations and the native validator factories) are modelled from the
specification, as marked on each definition.

JavaScript runtime values are modelled by the inductive `JValue`; JS objects
holding prop options or descriptors are modelled by the record `JObj`
(`undefined` fields become `none`).  Mutable JS objects, where aliasing
matters, live in explicit heaps (`World` for defaults records, `DHeap` for
descriptor objects) with addresses as list indices.
-/

/-- A JavaScript runtime value.  Numbers are modelled as integers (no claim
depends on float behaviour); functions and symbols are opaque ids. -/
inductive JValue where
  | undef
  | vnull
  | vbool (b : Bool)
  | num (n : Int)
  | str (s : String)
  | sym (id : Nat)
  | fn (id : Nat)
  | arr (items : List JValue)
  | obj (fields : List (String × JValue))

/-- A native JS constructor usable as a Vue `type` tag. -/
inductive NativeCtor where
  | cString
  | cNumber
  | cBoolean
  | cFunction
  | cArray
  | cObject
  | cSymbol
deriving DecidableEq, Repr

/-- The Vue `type` field: either one constructor or an array of them. -/
inductive TypeField where
  | one (c : NativeCtor)
  | many (cs : List NativeCtor)
deriving DecidableEq, Repr

/-- A validator function.  JS validators are variadic (`extend` binds extra
arguments in method form), so they take the full argument list. -/
def JValidator : Type := List JValue → Bool

/-- A stored `default`: either a plain value or a zero-argument factory,
modelled by the value the factory produces. -/
inductive DefaultVal where
  | dval (v : JValue)
  | dfactory (v : JValue)

/-- The argument passed to `def`: a plain value or a factory function. -/
inductive DefArg where
  | plain (v : JValue)
  | factoryArg (v : JValue)

/-- A JS object as used for prop options and descriptors: the Vue fields
plus the vue-types bookkeeping (`_vueTypes_name` tag and whether the
`validate()` chain method is exposed). -/
structure JObj where
  vtName : Option String := none
  type : Option TypeField := none
  required : Option Bool := none
  default : Option DefaultVal := none
  validator : Option JValidator := none
  validable : Bool := false

instance : Inhabited JObj := ⟨{}⟩

/-- Modelled from the spec: `stubTrue` from the missing `src/utils.ts`, the
validator that accepts everything. -/
def stubTrue : JValidator := fun _ => true

/-- Modelled from the spec: `isVueTypeDef` from the missing `src/utils.ts`
recognises vue-types descriptors by their `_vueTypes_name` tag. -/
def isVueTypeDef (o : JObj) : Bool := o.vtName.isSome

/-- Modelled from the spec: `toType` from the missing `src/utils.ts` turns
prop options into a descriptor carrying the chain operations but not the
`validate()` method. -/
def toType (name : String) (o : JObj) : JObj :=
  { o with vtName := some name, validable := false }

/-- Modelled from the spec: `toValidableType` from the missing
`src/utils.ts`; like `toType` but additionally exposing `validate()`. -/
def toValidableType (name : String) (o : JObj) : JObj :=
  { o with vtName := some name, validable := true }

/-- The native constructor matching a runtime value, if any. -/
def getCtor : JValue → Option NativeCtor
  | .vbool _ => some .cBoolean
  | .num _ => some .cNumber
  | .str _ => some .cString
  | .sym _ => some .cSymbol
  | .fn _ => some .cFunction
  | .arr _ => some .cArray
  | .obj _ => some .cObject
  | .undef => none
  | .vnull => none

/-- Does a value match one native constructor?  In this model primitive
values are the only representation of string/number/boolean, so the
"constructors also accept their primitive counterparts" rule is built in. -/
def matchesOne (c : NativeCtor) (v : JValue) : Bool :=
  decide (getCtor v = some c)

/-- Does a value match a `type` field (any tag of a set may match)? -/
def matchesType : TypeField → JValue → Bool
  | .one c, v => matchesOne c v
  | .many cs, v => cs.any (fun c => matchesOne c v)

def JValue.isUndef : JValue → Bool
  | .undef => true
  | _ => false

/-- Is the descriptor's `required` flag set (JS truthiness of the field)? -/
def requiredTrue (o : JObj) : Bool := o.required = some true

def ctorName : NativeCtor → String
  | .cString => "string"
  | .cNumber => "number"
  | .cBoolean => "boolean"
  | .cFunction => "function"
  | .cArray => "array"
  | .cObject => "object"
  | .cSymbol => "symbol"

def typeFieldName : Option TypeField → String
  | none => "any"
  | some (.one c) => ctorName c
  | some (.many cs) => String.intercalate " or " (cs.map ctorName)

def jShow : JValue → String
  | .undef => "undefined"
  | .vnull => "null"
  | .vbool b => cond b "true" "false"
  | .num n => toString n
  | .str s => "\"" ++ s ++ "\""
  | .sym _ => "symbol"
  | .fn _ => "function"
  | .arr _ => "array"
  | .obj _ => "object"

/-- The diagnostic text produced for a failed check. -/
def errText (d : JObj) (v : JValue) : String :=
  "value " ++ jShow v ++ " should be of type \"" ++ typeFieldName d.type ++ "\""

/-- Outcome of `validateType`: success (`true`), the boolean `false`, or a
descriptive error string (silent mode). -/
inductive VTOut where
  | ok
  | failFalse
  | msg (s : String)
deriving DecidableEq, Repr

/-- What may be passed to `validateType` as the validator spec: a native
constructor (or array of constructors), or an object (a vue-types
descriptor or raw Vue prop options). -/
inductive VSpec where
  | ctor (t : TypeField)
  | vobj (o : JObj)

/-- Normalisation step 1 of `validateType`: a bare constructor becomes a
prop-options object with just a `type` field. -/
def normalizeSpec : VSpec → JObj
  | .ctor t => { type := some t }
  | .vobj o => o

/-- Modelled from the spec: `validateType` from the missing `src/utils.ts`
(spec section 4.5 and `docs/guide/validators.md`).  Returns the outcome and
the number of diagnostic lines logged.  Steps: normalise the spec; an
absent optional value passes; check the `type` field; an explicit
`validator` is authoritative when present; on failure return the error
string without logging in silent mode, otherwise log once and return
`false`. -/
def validateType (spec : VSpec) (value : JValue) (silent : Bool) : VTOut × Nat :=
  let d := normalizeSpec spec
  if value.isUndef && !(requiredTrue d) then (.ok, 0)
  else
    let typeOk := match d.type with
      | none => true
      | some t => matchesType t value
    let pass := match d.validator with
      | some f => f [value]
      | none => typeOk
    if pass then (.ok, 0)
    else if silent then (.msg (errText d value), 0)
    else (.failFalse, 1)

/-- Does a value pass a descriptor's own check (used by `def`)? -/
def defValid (d : JObj) (v : JValue) : Bool :=
  decide ((validateType (.vobj d) v true).1 = VTOut.ok)

/-- Kinds whose plain default values `def` silently wraps in a factory. -/
def wrapsDefault (d : JObj) : Bool :=
  d.vtName = some "array" || d.vtName = some "object" || d.vtName = some "shape"

/-- Modelled from the spec: the chainable `def` operation from the missing
`src/utils.ts` (spec section 4.2).  `def(undefined)` (`arg = none`) deletes
the `default` attribute unconditionally; otherwise the value (or the
factory's produced value) is validated against the descriptor's own check,
stored on success (plain array/object/shape values are wrapped into a
factory) and left unchanged on failure. -/
def defOp (d : JObj) (arg : Option DefArg) : JObj :=
  match arg with
  | none => { d with default := none }
  | some (.plain v) =>
    if defValid d v then
      { d with default := some (if wrapsDefault d then .dfactory v else .dval v) }
    else d
  | some (.factoryArg v) =>
    if defValid d v then { d with default := some (.dfactory v) } else d

/-- Modelled from the spec: the `isRequired` accessor from the missing
`src/utils.ts` (spec section 4.2) sets `required = true`. -/
def isRequiredOp (d : JObj) : JObj := { d with required := some true }

/-- Modelled from the spec: the `validate(fn)` chain method from the missing
`src/utils.ts` installs `fn` as the validator; it exists only on validable
descriptors. -/
def validateOp (d : JObj) (f : JValidator) : JObj :=
  if d.validable then { d with validator := some f } else d

/-- One application of a chain operation to a descriptor. -/
inductive ChainStep where
  | reqStep
  | defStep (a : Option DefArg)
  | valStep (f : JValidator)

def applyStep (d : JObj) : ChainStep → JObj
  | .reqStep => isRequiredOp d
  | .defStep a => defOp d a
  | .valStep f => validateOp d f

/-! ## Native validator factories

Modelled from the spec (section 4.3 and `src/validators/native.ts`, which is
missing from the sources): one factory per primitive kind, always producing
a default-free descriptor whose `type` field is the matching constructor.
`integer` and `symbol` do not expose `validate()` (built with `toType`);
`integer` carries a predicate validator, `symbol` is checked by validator
only.  The source names (`any`, `func`, `bool`, ...) are kept, inside a
`native` namespace mirroring the module they come from. -/

namespace native

def any : JObj := toValidableType "any" {}

def func : JObj := toValidableType "func" { type := some (.one .cFunction) }

def bool : JObj := toValidableType "bool" { type := some (.one .cBoolean) }

def string : JObj := toValidableType "string" { type := some (.one .cString) }

def number : JObj := toValidableType "number" { type := some (.one .cNumber) }

def array : JObj := toValidableType "array" { type := some (.one .cArray) }

def object : JObj := toValidableType "object" { type := some (.one .cObject) }

def isIntegerValidator : JValidator := fun args =>
  match args.headD .undef with
  | .num _ => true
  | _ => false

def integer : JObj :=
  toType "integer" { type := some (.one .cNumber), validator := some isIntegerValidator }

def isSymbolValidator : JValidator := fun args =>
  match args.headD .undef with
  | .sym _ => true
  | _ => false

def symbol : JObj := toType "symbol" { validator := some isSymbolValidator }

end native

/-! ## Defaults records and the namespace state

`VueTypesDefaults` is a typed record (one optional default per primitive
kind, each of the kind's own type); `createTypes` copies the record it is
given into a namespace-local `defaults` variable.  JS record objects are
mutable and aliasable, so they live in an explicit heap `World`; a
namespace holds the address of the caller's config object (the captured
`defs` parameter) and the address of its own `defaults` record. -/

/-- The `Partial VueTypesDefaults` record: per-kind optional defaults,
typed as in `types/vue-types.d.ts` (a function default is an opaque
function id). -/
structure DefaultsRec where
  func : Option Nat := none
  bool : Option Bool := none
  string : Option String := none
  number : Option Int := none
  array : Option (List JValue) := none
  object : Option (List (String × JValue)) := none
  integer : Option Int := none

instance : Inhabited DefaultsRec := ⟨{}⟩

/-- Heap of mutable defaults-record objects; an address is a list index. -/
structure World where
  cells : List DefaultsRec

def World.read (w : World) (a : Nat) : DefaultsRec := w.cells.getD a {}

def World.write (w : World) (a : Nat) (r : DefaultsRec) : World := ⟨w.cells.set a r⟩

def World.alloc (w : World) (r : DefaultsRec) : World × Nat :=
  (⟨w.cells ++ [r]⟩, w.cells.length)

/-- A namespace produced by `createTypes`: the address of the captured
`defs` config object and the address of the local `defaults` record. -/
structure NsRef where
  defsAddr : Nat
  cell : Nat

/-- `createTypes(defs)` from `src/src/index.ts` lines 38-40: reads the
caller's config object and stores a local copy in a fresh record
(`let defaults = ...defs spread`). -/
def createTypes (w : World) (defsAddr : Nat) : World × NsRef :=
  let r := w.read defsAddr
  let (w1, c) := w.alloc r
  (w1, ⟨defsAddr, c⟩)

/-- The `sensibleDefaults` getter (lines 43-45): returns the current
defaults record. -/
def sensibleDefaults (w : World) (ns : NsRef) : DefaultsRec := w.read ns.cell

/-- Argument of the `sensibleDefaults` setter. -/
inductive SetArg where
  | sFalse
  | sTrue
  | sRec (r : DefaultsRec)

/-- The `sensibleDefaults` setter (lines 47-57): `false` empties the
record, `true` re-reads the captured `defs` object into a fresh copy, any
other object is shallow-copied. -/
def setSensibleDefaults (w : World) (ns : NsRef) : SetArg → World
  | .sFalse => w.write ns.cell {}
  | .sTrue => w.write ns.cell (w.read ns.defsAddr)
  | .sRec r => w.write ns.cell r

/-- In-place mutation of a namespace's defaults record (e.g. assigning one
field of the object the getter returns). -/
def mutateDefaults (w : World) (ns : NsRef) (g : DefaultsRec → DefaultsRec) : World :=
  w.write ns.cell (g (w.read ns.cell))

/-- The primitive kinds that consult the defaults record. -/
inductive DKind where
  | kFunc
  | kBool
  | kString
  | kNumber
  | kArray
  | kObject
  | kInteger
deriving DecidableEq, Repr

/-- The value stored in a defaults record for a kind, as a runtime value. -/
def storedOf (r : DefaultsRec) : DKind → Option JValue
  | .kFunc => r.func.map JValue.fn
  | .kBool => r.bool.map JValue.vbool
  | .kString => r.string.map JValue.str
  | .kNumber => r.number.map JValue.num
  | .kArray => r.array.map JValue.arr
  | .kObject => r.object.map JValue.obj
  | .kInteger => r.integer.map JValue.num

/-- The underlying validator factory for a kind. -/
def factoryOf : DKind → JObj
  | .kFunc => native.func
  | .kBool => native.bool
  | .kString => native.string
  | .kNumber => native.number
  | .kArray => native.array
  | .kObject => native.object
  | .kInteger => native.integer

/-- The convenience getters of `src/src/index.ts` lines 62-82: each builds
a fresh descriptor from the factory and applies `def` with the current
stored default (`def(undefined)` when the record holds none). -/
def convGetter (r : DefaultsRec) (k : DKind) : JObj :=
  defOp (factoryOf k) ((storedOf r k).map DefArg.plain)

/-! ## The `extend` mechanism (`src/src/index.ts` lines 95-174) -/

/-- The `type` field of an extend spec: a native constructor (or array of
constructors) or an object, possibly a vue-types descriptor. -/
inductive ExtendType where
  | native (t : TypeField)
  | vueDef (d : JObj)

/-- An `ExtendProps` spec: `name`, the `validate` and `getter` flags
(default `false`) and the rest of the prop options (`opts`). -/
structure ExtendProps where
  name : String
  validate : Bool := false
  getter : Bool := false
  type : Option ExtendType := none
  required : Option Bool := none
  default : Option DefaultVal := none
  validator : Option JValidator := none

/-- What `extend` stores for a name: the `getter` flag, the (possibly
forced-off) `validate` flag, and the processed options closed over by the
installed property. -/
structure Entry where
  name : String
  getter : Bool
  validate : Bool
  opts : JObj

/-- Lines 103-138 of `src/src/index.ts`: compute the entry installed for an
extend spec.  When `opts.type` is a vue-types descriptor the original
`type` is detached, `type` / `required` / `default` are inherited from the
base descriptor whenever defined there, `validate` is forced off, and if
the base has a validator the spec's validator (defaulting to `stubTrue`) is
conjoined with it. -/
def makeEntry (p : ExtendProps) : Entry :=
  match p.type with
  | some (.vueDef d) =>
    if isVueTypeDef d then
      let sv := p.validator.getD stubTrue
      let opts : JObj :=
        { type := d.type,
          required := match d.required with
            | some b => some b
            | none => p.required,
          default := match d.default with
            | some x => some x
            | none => p.default,
          validator := match d.validator with
            | some f => some (fun args => f args && sv args)
            | none => p.validator }
      { name := p.name, getter := p.getter, validate := false, opts := opts }
    else
      { name := p.name, getter := p.getter, validate := p.validate,
        opts := { required := p.required, default := p.default,
                  validator := p.validator } }
  | some (.native t) =>
    { name := p.name, getter := p.getter, validate := p.validate,
      opts := { type := some t, required := p.required, default := p.default,
                validator := p.validator } }
  | none =>
    { name := p.name, getter := p.getter, validate := p.validate,
      opts := { required := p.required, default := p.default,
                validator := p.validator } }

/-- The shallow copy `Object.assign` of the stored options performed on
every access (lines 144 and 156): a fresh object with the four prop-option
fields. -/
def copyOpts (o : JObj) : JObj :=
  { type := o.type, required := o.required, default := o.default,
    validator := o.validator }

/-- Getter-form access (lines 141-151): build `toValidableType` when
`validate` was kept, else `toType`, from a fresh copy of the options. -/
def getterBuild (e : Entry) : JObj :=
  if e.validate then toValidableType e.name (copyOpts e.opts)
  else toType e.name (copyOpts e.opts)

/-- Method-form invocation (lines 152-170): build the descriptor as above,
then, when the stored options carry a validator, rebind it with the
invocation arguments prepended. -/
def methodBuild (e : Entry) (args : List JValue) : JObj :=
  let ret :=
    if e.validate then toValidableType e.name (copyOpts e.opts)
    else toType e.name (copyOpts e.opts)
  match e.opts.validator with
  | some f => { ret with validator := some (fun callArgs => f (args ++ callArgs)) }
  | none => ret

/-- The property names a fresh `createTypes` namespace already owns
(statics of the `VueTypes` class, lines 42-189), checked by
`has(VueTypes, name)`. -/
def builtinNames : List String :=
  ["sensibleDefaults", "any", "func", "bool", "string", "number", "array",
   "object", "integer", "symbol", "custom", "oneOf", "instanceOf",
   "oneOfType", "arrayOf", "objectOf", "shape", "extend", "utils"]

/-- A namespace's registry of installed validator properties. -/
structure NsReg where
  names : List String
  entries : List (String × Entry)

def initReg : NsReg := { names := builtinNames, entries := [] }

def alreadyDefinedMsg (name : String) : String :=
  "[VueTypes error]: Type \"" ++ name ++ "\" already defined"

/-- `extend` for a single spec (lines 103-173): a name collision throws a
`TypeError` before anything is modified, otherwise the computed entry is
installed under the name via `Object.defineProperty`. -/
def extendOne (r : NsReg) (p : ExtendProps) : Except String NsReg :=
  if p.name ∈ r.names then Except.error (alreadyDefinedMsg p.name)
  else Except.ok { names := p.name :: r.names,
                   entries := (p.name, makeEntry p) :: r.entries }

/-- `utils.validate` (lines 176-179): always calls `validateType` in silent
mode. -/
def utilsValidate (value : JValue) (type : VSpec) : VTOut × Nat :=
  validateType type value true

/-! ## Heap of descriptor objects for the frame properties of `extend`

Each getter access / method invocation allocates a fresh descriptor object
built from a shallow copy of the closed-over options object; chain
operations mutate the descriptor object in place. -/

structure DHeap where
  objs : List JObj

def DHeap.read (h : DHeap) (a : Nat) : JObj := h.objs.getD a {}

def DHeap.write (h : DHeap) (a : Nat) (o : JObj) : DHeap := ⟨h.objs.set a o⟩

def DHeap.alloc (h : DHeap) (o : JObj) : DHeap × Nat :=
  (⟨h.objs ++ [o]⟩, h.objs.length)

/-- An installed property when the closed-over options object is tracked on
the heap. -/
structure HEntry where
  name : String
  getter : Bool
  validate : Bool
  optsAddr : Nat

def entryOf (e : HEntry) (o : JObj) : Entry :=
  { name := e.name, getter := e.getter, validate := e.validate, opts := o }

/-- One access of the installed property (getter form) or invocation of it
(method form): read the stored options, build a fresh descriptor from a
copy, allocate it. -/
def invokeEntryH (h : DHeap) (e : HEntry) (args : List JValue) : DHeap × Nat :=
  let o := h.read e.optsAddr
  let t := if e.getter then getterBuild (entryOf e o) else methodBuild (entryOf e o) args
  h.alloc t

/-- Apply one chain operation in place to the descriptor object at an
address. -/
def applyStepAt (h : DHeap) (addr : Nat) (s : ChainStep) : DHeap :=
  h.write addr (applyStep (h.read addr) s)

def applySteps (h : DHeap) (addr : Nat) : List ChainStep → DHeap
  | [] => h
  | s :: ss => applySteps (applyStepAt h addr s) addr ss

/-- `isRequired` access on a heap descriptor: mutates in place and returns
the same object (same address). -/
def isRequiredH (h : DHeap) (addr : Nat) : DHeap × Nat :=
  (applyStepAt h addr .reqStep, addr)

/-! ## Heap access lemmas -/

theorem getD_set_ne {α : Type} (l : List α) (a b : Nat) (x d : α) (h : a ≠ b) :
    (l.set a x).getD b d = l.getD b d := by
  induction l generalizing a b with
  | nil => rfl
  | cons y t ih =>
    cases a with
    | zero =>
      cases b with
      | zero => exact absurd rfl h
      | succ b => rfl
    | succ a =>
      cases b with
      | zero => rfl
      | succ b => exact ih a b (fun hh => h (congrArg Nat.succ hh))

theorem getD_set_self {α : Type} (l : List α) (a : Nat) (x d : α) (h : a < l.length) :
    (l.set a x).getD a d = x := by
  induction l generalizing a with
  | nil => exact absurd h (Nat.not_lt_zero a)
  | cons y t ih =>
    cases a with
    | zero => rfl
    | succ a => exact ih a (Nat.lt_of_succ_lt_succ h)

theorem getD_append_self {α : Type} (l : List α) (x d : α) :
    (l ++ [x]).getD l.length d = x := by
  induction l with
  | nil => rfl
  | cons y t ih => exact ih

theorem getD_append_lt {α : Type} (l : List α) (x d : α) (a : Nat) (h : a < l.length) :
    (l ++ [x]).getD a d = l.getD a d := by
  induction l generalizing a with
  | nil => exact absurd h (Nat.not_lt_zero a)
  | cons y t ih =>
    cases a with
    | zero => rfl
    | succ a => exact ih a (Nat.lt_of_succ_lt_succ h)

theorem World.read_write_ne (w : World) (a b : Nat) (r : DefaultsRec) (h : a ≠ b) :
    (w.write a r).read b = w.read b :=
  getD_set_ne w.cells a b r {} h

theorem World.read_write_self (w : World) (a : Nat) (r : DefaultsRec)
    (h : a < w.cells.length) : (w.write a r).read a = r :=
  getD_set_self w.cells a r {} h

theorem World.read_alloc_lt (w : World) (r : DefaultsRec) (a : Nat)
    (h : a < w.cells.length) : (w.alloc r).1.read a = w.read a :=
  getD_append_lt w.cells r {} a h

theorem World.read_alloc_self (w : World) (r : DefaultsRec) :
    (w.alloc r).1.read (w.alloc r).2 = r :=
  getD_append_self w.cells r {}

theorem dheap_read_write_ne (h : DHeap) (a b : Nat) (o : JObj) (hab : a ≠ b) :
    (h.write a o).read b = h.read b :=
  getD_set_ne h.objs a b o {} hab

theorem dheap_read_alloc_lt (h : DHeap) (o : JObj) (a : Nat)
    (ha : a < h.objs.length) : (h.alloc o).1.read a = h.read a :=
  getD_append_lt h.objs o {} a ha

theorem dheap_read_alloc_self (h : DHeap) (o : JObj) :
    (h.alloc o).1.read (h.alloc o).2 = o :=
  getD_append_self h.objs o {}

/-- The `sensibleDefaults` setter only writes the namespace's own record. -/
theorem setSensibleDefaults_read_other (w : World) (ns : NsRef) (m : SetArg)
    (b : Nat) (h : ns.cell ≠ b) :
    World.read (setSensibleDefaults w ns m) b = w.read b := by
  cases m <;> exact World.read_write_ne w ns.cell b _ h

/-- In-place mutation of a defaults record only writes the record's own
cell. -/
theorem mutateDefaults_read_other (w : World) (ns : NsRef)
    (g : DefaultsRec → DefaultsRec) (b : Nat) (h : ns.cell ≠ b) :
    World.read (mutateDefaults w ns g) b = w.read b :=
  World.read_write_ne w ns.cell b _ h

/-- A sequence of chain operations applied at one address leaves every
other address unchanged. -/
theorem applySteps_read_other (ss : List ChainStep) (h : DHeap) (addr b : Nat)
    (hne : addr ≠ b) : (applySteps h addr ss).read b = h.read b := by
  induction ss generalizing h with
  | nil => rfl
  | cons s ss ih =>
    unfold applySteps
    rw [ih, applyStepAt, dheap_read_write_ne _ _ _ _ hne]

/-! ## Claim theorems -/

/-- C7: for every descriptor and every prior state of its `default`
attribute, `def(undefined)` deletes the `default` attribute entirely, so
`string().def('x').def(undefined)` has no `default` key. -/
theorem def_undefined_deletes_default :
    (∀ d : JObj, (defOp d none).default = none) ∧
    (defOp (defOp native.string (some (.plain (.str "x")))) none).default = none := by
  exact ⟨fun d => rfl, rfl⟩

/-- C8: `isRequired` sets `required = true`, returns the same descriptor
object, is idempotent, no chain operation ever takes `required` back off
`true`, and a bare factory descriptor has `required` absent. -/
theorem isRequired_only_sets_true :
    (∀ d : JObj, (isRequiredOp d).required = some true) ∧
    (∀ d : JObj, isRequiredOp (isRequiredOp d) = isRequiredOp d) ∧
    (∀ (d : JObj) (s : ChainStep),
      d.required = some true → (applyStep d s).required = some true) ∧
    (∀ (h : DHeap) (a : Nat), (isRequiredH h a).2 = a) ∧
    (∀ k : DKind, (factoryOf k).required = none) ∧
    native.any.required = none ∧ native.symbol.required = none := by
  refine ⟨fun d => rfl, fun d => rfl, ?_, fun h a => rfl, fun k => by cases k <;> rfl,
    rfl, rfl⟩
  intro d s h
  cases s with
  | reqStep => rfl
  | defStep a =>
    cases a with
    | none => exact h
    | some a =>
      cases a with
      | plain v => simp only [applyStep, defOp]; split <;> simpa using h
      | factoryArg v => simp only [applyStep, defOp]; split <;> simpa using h
  | valStep f =>
    simp only [applyStep, validateOp]; split <;> simpa using h

/-- C8 witness: the preservation clause applied at a concrete input. -/
theorem isRequired_only_sets_true_witness :
    (isRequiredOp native.string).required = some true ∧
    (applyStep (isRequiredOp native.string) (ChainStep.defStep none)).required
      = some true :=
  ⟨rfl, isRequired_only_sets_true.2.2.1 (isRequiredOp native.string)
    (ChainStep.defStep none) rfl⟩

/-- Whether a `validateType` check succeeds (independent of the `silent`
flag). -/
def vtSucceeds (spec : VSpec) (value : JValue) : Bool :=
  let d := normalizeSpec spec
  (value.isUndef && !(requiredTrue d)) ||
    (match d.validator with
     | some f => f [value]
     | none => match d.type with
       | none => true
       | some t => matchesType t value)

theorem validateType_eq (spec : VSpec) (value : JValue) (silent : Bool) :
    validateType spec value silent =
      if vtSucceeds spec value then (VTOut.ok, 0)
      else if silent then (VTOut.msg (errText (normalizeSpec spec) value), 0)
      else (VTOut.failFalse, 1) := by
  unfold validateType vtSucceeds
  cases hu : (value.isUndef && !(requiredTrue (normalizeSpec spec))) <;> simp [hu]

/-- C3: `validateType` in silent mode never logs and never returns the
boolean `false` (on failure it returns a descriptive string, on success
`true`); in loud mode it either succeeds quietly or logs exactly one
diagnostic and returns `false`; success does not depend on the mode; and
`utils.validate` always calls `validateType` in silent mode. -/
theorem validateType_silent_contract (s : VSpec) (v : JValue) :
    ((validateType s v true).2 = 0) ∧
    ((validateType s v true).1 ≠ VTOut.failFalse) ∧
    ((validateType s v true).1 = VTOut.ok ∨
      ∃ m, (validateType s v true).1 = VTOut.msg m) ∧
    ((validateType s v false).1 = VTOut.ok ∧ (validateType s v false).2 = 0 ∨
      (validateType s v false).1 = VTOut.failFalse ∧ (validateType s v false).2 = 1) ∧
    ((validateType s v false).1 = VTOut.ok ↔ (validateType s v true).1 = VTOut.ok) ∧
    (utilsValidate v s = validateType s v true) := by
  have h1 := validateType_eq s v true
  have h0 := validateType_eq s v false
  cases hs : vtSucceeds s v <;> simp [hs] at h1 h0 <;>
    simp [h1, h0, utilsValidate]

/-- C2: `extend` on a name the namespace already owns throws a `TypeError`
naming the collision, and never silently installs anything. -/
theorem extend_collision_throws (r : NsReg) (p : ExtendProps)
    (h : p.name ∈ r.names) :
    extendOne r p = Except.error (alreadyDefinedMsg p.name) ∧
    ∀ r' : NsReg, extendOne r p ≠ Except.ok r' := by
  refine ⟨by simp [extendOne, h], ?_⟩
  intro r' hc
  simp [extendOne, h] at hc

/-- C2 witness: extending a fresh namespace with the already-present name
`string` errors out. -/
theorem extend_collision_throws_witness :
    ("string" ∈ initReg.names) ∧
    (extendOne initReg { name := "string" } =
        Except.error (alreadyDefinedMsg "string") ∧
      ∀ r' : NsReg, extendOne initReg { name := "string" } ≠ Except.ok r') :=
  ⟨by decide, extend_collision_throws initReg { name := "string" } (by decide)⟩

/-- C1: when an extend spec's `type` is itself a vue-types descriptor, the
installed options inherit the base descriptor's `type` (the original is
detached, so the field becomes exactly the base's), `required` and
`default` whenever defined on the base, and when the base carries a
validator the stored validator — and the one on every descriptor the
property produces — is the conjunction of the base's validator and the
spec's own (defaulting to `stubTrue`). -/
theorem extend_inherits_and_composes (p : ExtendProps) (d : JObj) (f : JValidator)
    (ht : p.type = some (ExtendType.vueDef d)) (hn : isVueTypeDef d = true)
    (hv : d.validator = some f) :
    ((makeEntry p).opts.type = d.type) ∧
    (d.required.isSome → (makeEntry p).opts.required = d.required) ∧
    (d.default.isSome → (makeEntry p).opts.default = d.default) ∧
    (∃ g, (makeEntry p).opts.validator = some g ∧
      ∀ args, g args = (f args && (p.validator.getD stubTrue) args)) ∧
    (∃ g, (getterBuild (makeEntry p)).validator = some g ∧
      ∀ value, g [value] = (f [value] && (p.validator.getD stubTrue) [value])) ∧
    (∃ g, (methodBuild (makeEntry p) []).validator = some g ∧
      ∀ value, g [value] = (f [value] && (p.validator.getD stubTrue) [value])) := by
  have he : makeEntry p =
      { name := p.name, getter := p.getter, validate := false,
        opts := { type := d.type,
                  required := match d.required with
                    | some b => some b
                    | none => p.required,
                  default := match d.default with
                    | some x => some x
                    | none => p.default,
                  validator := some (fun args =>
                    f args && (p.validator.getD stubTrue) args) } } := by
    unfold makeEntry
    rw [ht]
    simp [hn, hv]
  rw [he]
  refine ⟨rfl, ?_, ?_, ⟨_, rfl, fun args => rfl⟩, ⟨_, rfl, fun value => rfl⟩,
    ⟨_, rfl, fun value => rfl⟩⟩
  · intro h
    obtain ⟨b, hb⟩ := Option.isSome_iff_exists.mp h
    simp [hb]
  · intro h
    obtain ⟨x, hx⟩ := Option.isSome_iff_exists.mp h
    simp [hx]

/-- Base validator used in the concrete examples: strings of length at
most three. -/
def exBaseValidator : JValidator := fun args =>
  match args.headD .undef with
  | .str s => decide (s.length ≤ 3)
  | _ => false

/-- Extra validator used in the concrete examples: non-empty strings. -/
def exSpecValidator : JValidator := fun args =>
  match args.headD .undef with
  | .str s => decide (s ≠ "")
  | _ => false

/-- A concrete base descriptor: a required string type with a validator
and a default. -/
def exBase : JObj :=
  defOp (isRequiredOp (validateOp native.string exBaseValidator))
    (some (.plain (.str "ab")))

/-- A concrete extend spec using `exBase` as its `type` and requesting
`validate` (which inheritance must turn off). -/
def exProps : ExtendProps :=
  { name := "shortString", validate := true, getter := true,
    type := some (.vueDef exBase), validator := some exSpecValidator }

/-- C1 witness: the inheritance theorem applied to the concrete spec. -/
theorem extend_inherits_and_composes_witness :
    (exProps.type = some (ExtendType.vueDef exBase) ∧
      isVueTypeDef exBase = true ∧ exBase.validator = some exBaseValidator) ∧
    (((makeEntry exProps).opts.type = exBase.type) ∧
      (exBase.required.isSome → (makeEntry exProps).opts.required = exBase.required) ∧
      (exBase.default.isSome → (makeEntry exProps).opts.default = exBase.default) ∧
      (∃ g, (makeEntry exProps).opts.validator = some g ∧
        ∀ args, g args =
          (exBaseValidator args && (exProps.validator.getD stubTrue) args)) ∧
      (∃ g, (getterBuild (makeEntry exProps)).validator = some g ∧
        ∀ value, g [value] =
          (exBaseValidator [value] && (exProps.validator.getD stubTrue) [value])) ∧
      (∃ g, (methodBuild (makeEntry exProps) []).validator = some g ∧
        ∀ value, g [value] =
          (exBaseValidator [value] && (exProps.validator.getD stubTrue) [value]))) :=
  ⟨⟨rfl, rfl, rfl⟩,
    extend_inherits_and_composes exProps exBase exBaseValidator rfl rfl rfl⟩

/-- C6: when an extend spec's `type` is a vue-types descriptor, the
`validate` flag is forced off, so every descriptor the installed property
produces — getter or method form — is built with `toType` and never
exposes the `validate()` chain method, even if the spec asked for it. -/
theorem extend_disallows_validate (p : ExtendProps) (d : JObj)
    (ht : p.type = some (ExtendType.vueDef d)) (hn : isVueTypeDef d = true) :
    (makeEntry p).validate = false ∧
    (getterBuild (makeEntry p)).validable = false ∧
    ∀ args, (methodBuild (makeEntry p) args).validable = false := by
  have hval : (makeEntry p).validate = false := by
    unfold makeEntry
    rw [ht]
    simp [hn]
  refine ⟨hval, ?_, ?_⟩
  · simp [getterBuild, hval, toType]
  · intro args
    simp only [methodBuild, hval, if_false, Bool.false_eq_true]
    cases (makeEntry p).opts.validator <;> simp [toType]

/-- C6 witness: the concrete spec `exProps` requests `validate = true`,
yet nothing validable is produced. -/
theorem extend_disallows_validate_witness :
    (exProps.type = some (ExtendType.vueDef exBase) ∧
      isVueTypeDef exBase = true ∧ exProps.validate = true) ∧
    ((makeEntry exProps).validate = false ∧
      (getterBuild (makeEntry exProps)).validable = false ∧
      ∀ args, (methodBuild (makeEntry exProps) args).validable = false) :=
  ⟨⟨rfl, rfl, rfl⟩, extend_disallows_validate exProps exBase rfl rfl⟩

/-- How `def` stores a plain default for a kind: array and object defaults
are silently wrapped into a factory, the rest are stored as values. -/
def wrapExpected (k : DKind) (v : JValue) : DefaultVal :=
  match k with
  | .kArray => .dfactory v
  | .kObject => .dfactory v
  | _ => .dval v

/-- C5: each convenience getter returns a freshly built descriptor whose
`default` is exactly the value currently stored in the namespace's
defaults record for that kind (applied via `def`, hence wrapped for
array/object kinds and absent when the record holds none), while the
underlying factory always produces a default-free descriptor. -/
theorem conv_getter_default (w : World) (ns : NsRef) (k : DKind) :
    (convGetter (sensibleDefaults w ns) k).default =
      (storedOf (sensibleDefaults w ns) k).map (wrapExpected k) ∧
    (factoryOf k).default = none := by
  refine ⟨?_, by cases k <;> rfl⟩
  generalize sensibleDefaults w ns = r
  cases k with
  | kFunc => cases hf : r.func <;> simp [convGetter, storedOf, hf] <;> rfl
  | kBool => cases hf : r.bool <;> simp [convGetter, storedOf, hf] <;> rfl
  | kString => cases hf : r.string <;> simp [convGetter, storedOf, hf] <;> rfl
  | kNumber => cases hf : r.number <;> simp [convGetter, storedOf, hf] <;> rfl
  | kArray => cases hf : r.array <;> simp [convGetter, storedOf, hf] <;> rfl
  | kObject => cases hf : r.object <;> simp [convGetter, storedOf, hf] <;> rfl
  | kInteger => cases hf : r.integer <;> simp [convGetter, storedOf, hf] <;> rfl

/-- C10: the `sensibleDefaults` setter: `false` installs an empty record
(so every convenience getter applies no default), `true` installs a fresh
copy of the `defs` config object createTypes captured, any other record is
shallow-copied, and the getter returns the current record; a namespace's
captured config is exactly the one passed to `createTypes`. -/
theorem sensibleDefaults_setter_spec (w : World) (ns : NsRef) (r : DefaultsRec)
    (h : ns.cell < w.cells.length) (w0 : World) (a : Nat) :
    sensibleDefaults (setSensibleDefaults w ns .sFalse) ns = {} ∧
    (∀ k, (convGetter (sensibleDefaults (setSensibleDefaults w ns .sFalse) ns) k).default
      = none) ∧
    sensibleDefaults (setSensibleDefaults w ns .sTrue) ns = w.read ns.defsAddr ∧
    sensibleDefaults (setSensibleDefaults w ns (.sRec r)) ns = r ∧
    sensibleDefaults w ns = w.read ns.cell ∧
    (createTypes w0 a).2.defsAddr = a := by
  have hf : sensibleDefaults (setSensibleDefaults w ns .sFalse) ns = {} :=
    World.read_write_self w ns.cell {} h
  refine ⟨hf, ?_, World.read_write_self w ns.cell _ h,
    World.read_write_self w ns.cell r h, rfl, rfl⟩
  intro k
  rw [hf]
  cases k <;> rfl

/-- C10 witness: the setter semantics on a one-cell world. -/
theorem sensibleDefaults_setter_spec_witness :
    (0 < (World.mk [{ string := some "hi" }]).cells.length) ∧
    (sensibleDefaults
        (setSensibleDefaults (World.mk [{ string := some "hi" }]) ⟨0, 0⟩ .sFalse)
        ⟨0, 0⟩ = {} ∧
      (∀ k, (convGetter
          (sensibleDefaults
            (setSensibleDefaults (World.mk [{ string := some "hi" }]) ⟨0, 0⟩ .sFalse)
            ⟨0, 0⟩) k).default = none) ∧
      sensibleDefaults
          (setSensibleDefaults (World.mk [{ string := some "hi" }]) ⟨0, 0⟩ .sTrue)
          ⟨0, 0⟩ = (World.mk [{ string := some "hi" }]).read 0 ∧
      sensibleDefaults
          (setSensibleDefaults (World.mk [{ string := some "hi" }]) ⟨0, 0⟩
            (.sRec { number := some 3 })) ⟨0, 0⟩ = { number := some 3 } ∧
      sensibleDefaults (World.mk [{ string := some "hi" }]) ⟨0, 0⟩ =
        (World.mk [{ string := some "hi" }]).read 0 ∧
      (createTypes (World.mk [{ string := some "hi" }]) 0).2.defsAddr = 0) :=
  ⟨Nat.zero_lt_one,
    sensibleDefaults_setter_spec (World.mk [{ string := some "hi" }]) ⟨0, 0⟩
      { number := some 3 } Nat.zero_lt_one (World.mk [{ string := some "hi" }]) 0⟩

/-- C4: two namespaces created by `createTypes` hold disjoint defaults
records: any assignment through one namespace's `sensibleDefaults` setter
or in-place mutation of its record leaves the other namespace's record —
and hence every convenience getter of the other namespace — unchanged; and
mutating the caller's config object afterwards does not alter either
namespace's defaults record. -/
theorem createTypes_independence (w w1 w2 : World) (a1 a2 : Nat) (n1 n2 : NsRef)
    (h1 : a1 < w.cells.length) (h2 : a2 < w.cells.length)
    (e1 : createTypes w a1 = (w1, n1)) (e2 : createTypes w1 a2 = (w2, n2))
    (m : SetArg) (g : DefaultsRec → DefaultsRec) :
    n1.cell ≠ n2.cell ∧
    sensibleDefaults (setSensibleDefaults w2 n1 m) n2 = sensibleDefaults w2 n2 ∧
    sensibleDefaults (mutateDefaults w2 n1 g) n2 = sensibleDefaults w2 n2 ∧
    (∀ k, convGetter (sensibleDefaults (setSensibleDefaults w2 n1 m) n2) k
      = convGetter (sensibleDefaults w2 n2) k) ∧
    sensibleDefaults (setSensibleDefaults w2 n2 m) n1 = sensibleDefaults w2 n1 ∧
    sensibleDefaults (mutateDefaults w2 n2 g) n1 = sensibleDefaults w2 n1 ∧
    sensibleDefaults (World.write w2 a1 (g (World.read w2 a1))) n1
      = sensibleDefaults w2 n1 ∧
    sensibleDefaults (World.write w2 a2 (g (World.read w2 a2))) n2
      = sensibleDefaults w2 n2 := by
  have hn1 : n1 = ⟨a1, w.cells.length⟩ := (congrArg Prod.snd e1).symm
  have hw1 : w1 = ⟨w.cells ++ [w.read a1]⟩ := (congrArg Prod.fst e1).symm
  have hn2 : n2 = ⟨a2, w1.cells.length⟩ := (congrArg Prod.snd e2).symm
  have hw1len : w1.cells.length = w.cells.length + 1 := by
    rw [hw1]; simp
  have hcell1 : n1.cell = w.cells.length := by rw [hn1]
  have hcell2 : n2.cell = w.cells.length + 1 := by rw [hn2, hw1len]
  have hne : n1.cell ≠ n2.cell := by omega
  have hset12 := setSensibleDefaults_read_other w2 n1 m n2.cell hne
  refine ⟨hne, hset12, mutateDefaults_read_other w2 n1 g n2.cell hne, ?_,
    setSensibleDefaults_read_other w2 n2 m n1.cell (by omega),
    mutateDefaults_read_other w2 n2 g n1.cell (by omega),
    World.read_write_ne w2 a1 n1.cell _ (by omega),
    World.read_write_ne w2 a2 n2.cell _ (by omega)⟩
  intro k
  unfold sensibleDefaults at hset12 ⊢
  rw [hset12]

/-- A two-cell world for the independence witness. -/
def exW : World := ⟨[{ string := some "a" }, { bool := some true }]⟩

def exW1 : World := (createTypes exW 0).1

def exN1 : NsRef := (createTypes exW 0).2

def exW2 : World := (createTypes exW1 1).1

def exN2 : NsRef := (createTypes exW1 1).2

/-- C4 witness: independence of two concrete namespaces under a concrete
setter assignment and a concrete in-place mutation. -/
theorem createTypes_independence_witness :
    (0 < exW.cells.length ∧ 1 < exW.cells.length ∧
      createTypes exW 0 = (exW1, exN1) ∧ createTypes exW1 1 = (exW2, exN2)) ∧
    (exN1.cell ≠ exN2.cell ∧
      sensibleDefaults (setSensibleDefaults exW2 exN1 .sFalse) exN2
        = sensibleDefaults exW2 exN2 ∧
      sensibleDefaults
          (mutateDefaults exW2 exN1 (fun r => { r with number := some 7 })) exN2
        = sensibleDefaults exW2 exN2 ∧
      (∀ k, convGetter
          (sensibleDefaults (setSensibleDefaults exW2 exN1 .sFalse) exN2) k
        = convGetter (sensibleDefaults exW2 exN2) k) ∧
      sensibleDefaults (setSensibleDefaults exW2 exN2 .sFalse) exN1
        = sensibleDefaults exW2 exN1 ∧
      sensibleDefaults
          (mutateDefaults exW2 exN2 (fun r => { r with number := some 7 })) exN1
        = sensibleDefaults exW2 exN1 ∧
      sensibleDefaults
          (World.write exW2 0
            ((fun r => { r with number := some 7 }) (World.read exW2 0))) exN1
        = sensibleDefaults exW2 exN1 ∧
      sensibleDefaults
          (World.write exW2 1
            ((fun r => { r with number := some 7 }) (World.read exW2 1))) exN2
        = sensibleDefaults exW2 exN2) :=
  ⟨⟨Nat.zero_lt_two, Nat.one_lt_two, rfl, rfl⟩,
    createTypes_independence exW exW1 exW2 0 1 exN1 exN2
      Nat.zero_lt_two Nat.one_lt_two rfl rfl .sFalse
      (fun r => { r with number := some 7 })⟩

/-- The descriptor an access/invocation builds, as a function of the stored
options object only. -/
def buildOf (e : HEntry) (o : JObj) (args : List JValue) : JObj :=
  if e.getter then getterBuild (entryOf e o) else methodBuild (entryOf e o) args

theorem invokeEntryH_read (h : DHeap) (e : HEntry) (args : List JValue) :
    (invokeEntryH h e args).1.read (invokeEntryH h e args).2
      = buildOf e (h.read e.optsAddr) args :=
  dheap_read_alloc_self h _

theorem invokeEntryH_read_lt (h : DHeap) (e : HEntry) (args : List JValue)
    (a : Nat) (ha : a < h.objs.length) :
    (invokeEntryH h e args).1.read a = h.read a :=
  dheap_read_alloc_lt h _ a ha

/-- C9: every access (getter form) or invocation (method form) of a
validator installed by `extend` builds a fresh descriptor object from a
shallow copy of the stored options, so chain operations applied to one
returned descriptor change neither the stored options object nor the
descriptor a later access or invocation returns. -/
theorem extend_access_returns_fresh_copy (h : DHeap) (e : HEntry)
    (args args2 : List JValue) (ss : List ChainStep)
    (hv : e.optsAddr < h.objs.length) :
    (applySteps (invokeEntryH h e args).1 (invokeEntryH h e args).2 ss).read
        e.optsAddr = h.read e.optsAddr ∧
    ((invokeEntryH
          (applySteps (invokeEntryH h e args).1 (invokeEntryH h e args).2 ss)
          e args2).1.read
        (invokeEntryH
          (applySteps (invokeEntryH h e args).1 (invokeEntryH h e args).2 ss)
          e args2).2
      = (invokeEntryH h e args2).1.read (invokeEntryH h e args2).2) := by
  have haddr : (invokeEntryH h e args).2 = h.objs.length := rfl
  have hne : (invokeEntryH h e args).2 ≠ e.optsAddr := by omega
  have hopts : (applySteps (invokeEntryH h e args).1 (invokeEntryH h e args).2 ss).read
      e.optsAddr = h.read e.optsAddr := by
    rw [applySteps_read_other _ _ _ _ hne, invokeEntryH_read_lt h e args _ hv]
  refine ⟨hopts, ?_⟩
  rw [invokeEntryH_read, invokeEntryH_read, hopts]

/-- A concrete stored options object for the freshness witness. -/
def exOpts : JObj :=
  { type := some (.one .cString), validator := some exSpecValidator }

/-- A concrete getter-form entry whose options live at heap address 0. -/
def exHEntry : HEntry := { name := "custom1", getter := true, validate := true,
                           optsAddr := 0 }

/-- C9 witness: the freshness theorem on a one-object heap, mutating the
first returned descriptor with `isRequired` and a `def`. -/
theorem extend_access_returns_fresh_copy_witness :
    (exHEntry.optsAddr < (DHeap.mk [exOpts]).objs.length) ∧
    ((applySteps (invokeEntryH (DHeap.mk [exOpts]) exHEntry []).1
          (invokeEntryH (DHeap.mk [exOpts]) exHEntry []).2
          [.reqStep, .defStep (some (.plain (.str "x")))]).read
        exHEntry.optsAddr = (DHeap.mk [exOpts]).read exHEntry.optsAddr ∧
      ((invokeEntryH
            (applySteps (invokeEntryH (DHeap.mk [exOpts]) exHEntry []).1
              (invokeEntryH (DHeap.mk [exOpts]) exHEntry []).2
              [.reqStep, .defStep (some (.plain (.str "x")))])
            exHEntry []).1.read
          (invokeEntryH
            (applySteps (invokeEntryH (DHeap.mk [exOpts]) exHEntry []).1
              (invokeEntryH (DHeap.mk [exOpts]) exHEntry []).2
              [.reqStep, .defStep (some (.plain (.str "x")))])
            exHEntry []).2
        = (invokeEntryH (DHeap.mk [exOpts]) exHEntry []).1.read
            (invokeEntryH (DHeap.mk [exOpts]) exHEntry []).2)) :=
  ⟨Nat.zero_lt_one,
    extend_access_returns_fresh_copy (DHeap.mk [exOpts]) exHEntry [] []
      [.reqStep, .defStep (some (.plain (.str "x")))] Nat.zero_lt_one⟩
